import Mathlib

/-!
Verification development for the rendezvous-server chat core: a shallow
embedding of the room-based messaging engine (conversation membership,
message delivery, cursor pagination, typing debounce, read receipts)
together with theorems about its behaviour.

The embedding mirrors the TypeScript source:
  - the mongoose chat module (handleMessageSend, handleMessagesLoad,
    handleDirectGetOrCreate, handleMessagesRead and the conversation and
    message schemas);
  - the raw-collection snapshot (handleChatMessageSend,
    handleChatMessagesLoad) which maintains per-participant unreadCounts;
  - the DM module (dm:send, dm:read, dm:typing handlers with the
    typingTimers map).
Mongo ObjectIds are modelled by their numeric value (a Nat): ObjectId order
is byte order, which for ids of one format is numeric order, and insertion
order equals id order. Dates are epoch milliseconds (Nat). Effects a
handler performs (persists, socket emits, room joins) are returned as an
explicit trace list.
-/

namespace Rendezvous

/-! ## ObjectId model -/

/-- Hex digit test, as used by ObjectId validation. -/
def isHexChar (c : Char) : Bool :=
  (decide ('0' ≤ c) && decide (c ≤ '9')) ||
  (decide ('a' ≤ c) && decide (c ≤ 'f')) ||
  (decide ('A' ≤ c) && decide (c ≤ 'F'))

/-- mongoose.Types.ObjectId.isValid on a string: true for a 24-character
hex string, and for any 12-character string (12 raw bytes). -/
def isValidId (s : String) : Bool :=
  s.length == 12 || (s.length == 24 && s.toList.all isHexChar)

/-- Value of one hex digit. -/
def hexVal (c : Char) : Nat :=
  if decide ('0' ≤ c) && decide (c ≤ '9') then c.toNat - '0'.toNat
  else if decide ('a' ≤ c) && decide (c ≤ 'f') then c.toNat - 'a'.toNat + 10
  else if decide ('A' ≤ c) && decide (c ≤ 'F') then c.toNat - 'A'.toNat + 10
  else 0

/-- Numeric value of an ObjectId string; ObjectId comparison is comparison
of these values. -/
def oidValue (s : String) : Nat :=
  if s.length == 24 then s.toList.foldl (fun n c => n * 16 + hexVal c) 0
  else s.toList.foldl (fun n c => n * 256 + c.toNat) 0

/-- JS String.prototype.trim: strip leading and trailing whitespace. -/
def trimString (s : String) : String :=
  ⟨((s.data.dropWhile Char.isWhitespace).reverse.dropWhile Char.isWhitespace).reverse⟩

/-- JS String.prototype.slice(0, n): the first n characters. -/
def takeString (s : String) (n : Nat) : String :=
  ⟨s.data.take n⟩

/-! ## Data model (mongoose schemas)

conversation.model.ts: type, name, slug (unique), participants : [String],
optional lastMessage {content, senderId, senderName, timestamp},
timestamps. The message schema: conversationId, senderId, senderName,
senderAvatar, content (maxlength 5000), readBy : [String], timestamps.
-/

structure LastMessage where
  content : String
  senderId : String
  senderName : String
  timestamp : Nat
  deriving Repr, DecidableEq

structure Conversation where
  idStr : String
  ctype : String
  name : String
  slug : String
  participants : List String
  lastMessage : Option LastMessage
  createdAt : Nat
  updatedAt : Nat
  deriving Repr, DecidableEq

structure Message where
  id : Nat
  conversationId : String
  senderId : String
  senderName : String
  senderAvatar : String
  content : String
  readBy : List String
  createdAt : Nat
  deriving Repr, DecidableEq

/-- The persistence layer state for the mongoose chat module and the DM
module: the conversations and messages collections. -/
structure Store where
  conversations : List Conversation
  messages : List Message
  deriving Repr, DecidableEq

/-! ## Socket effects -/

inductive Emit where
  | chatError (message : String)
  | messagesLoaded (conversationId : String) (messages : List Message) (hasMore : Bool)
  | messageNew (room : String) (message : Message)
  | directReady (conversation : Conversation)
  | conversationNew (room : String) (conversation : Conversation)
  | dmError (message : String)
  | dmReceive (room : String) (message : Message)
  | dmSent (messageId : Nat)
  | dmNotification (room : String) (senderName : String) (preview : String)
  | dmReadReceipt (room : String) (messageIds : List Nat) (userId : String)
  deriving Repr, DecidableEq

inductive Effect where
  | persist (m : Message)
  | emit (e : Emit)
  | joinRoom (room : String)
  | socketsJoin (userRoom room : String)
  deriving Repr, DecidableEq

def getChatRoom (conversationId : String) : String := "chat:conv:" ++ conversationId

def getUserRoom (userId : String) : String := "user:" ++ userId

def getConversationRoom (conversationId : String) : String :=
  "conversation:" ++ conversationId

/-- updateOne / findByIdAndUpdate semantics: rewrite the first matching
document, leave the rest untouched. -/
def updateFirst (p : α → Bool) (f : α → α) : List α → List α
  | [] => []
  | x :: xs => if p x then f x :: xs else x :: updateFirst p f xs

/-! ## handleMessagesLoad (mongoose chat module) -/

def MESSAGES_LIMIT : Nat := 50

/-- The cursor bound of the history query: `if (cursor && isValidId(cursor))
query._id = {$lt: new ObjectId(cursor)}`. An absent, empty or invalid
cursor leaves the query unbounded. -/
def cursorBound (cursor : Option String) : Option Nat :=
  match cursor with
  | some cu => if cu ≠ "" && isValidId cu then some (oidValue cu) else none
  | none => none

/-- The find filter of the history query: same conversation, and id below
the bound when one is present. -/
def matchesQuery (conversationId : String) (bound : Option Nat) (m : Message) : Bool :=
  m.conversationId == conversationId &&
    (match bound with
     | some b => decide (m.id < b)
     | none => true)

/-- .sort({_id : -1}) -/
def sortByIdDesc (ms : List Message) : List Message :=
  ms.mergeSort (fun a b => decide (b.id ≤ a.id))

/-- handleMessagesLoad: validate the conversation id, check the requester
is a participant, fetch MESSAGES_LIMIT + 1 rows below the cursor sorted
descending, reverse the first MESSAGES_LIMIT for display and flag hasMore
by the presence of the extra row. The load mutates nothing. -/
def handleMessagesLoad (store : Store) (userId : String)
    (conversationId : String) (cursor : Option String) : List Effect :=
  if !isValidId conversationId then
    [.emit (.chatError "Invalid conversation ID")]
  else
    match store.conversations.find?
        (fun c => c.idStr == conversationId && c.participants.contains userId) with
    | none => [.emit (.chatError "Conversation not found")]
    | some _ =>
      let raw := (sortByIdDesc (store.messages.filter
        (matchesQuery conversationId (cursorBound cursor)))).take (MESSAGES_LIMIT + 1)
      let hasMore := decide (MESSAGES_LIMIT < raw.length)
      let messages := (raw.take MESSAGES_LIMIT).reverse
      [.emit (.messagesLoaded conversationId messages hasMore)]

/-! ## handleMessageSend (mongoose chat module) -/

/-- The findByIdAndUpdate document of a send: set the lastMessage summary
and bump updatedAt. -/
def applySendUpdate (trimmed userId userName : String) (now : Nat)
    (c : Conversation) : Conversation :=
  let lm : LastMessage :=
    { content := trimmed, senderId := userId,
      senderName := userName, timestamp := now }
  { c with lastMessage := some lm, updatedAt := now }

/-- The message row a send persists. -/
def mkSentMessage (userId userName userAvatar conversationId trimmed : String)
    (freshId now : Nat) : Message :=
  { id := freshId, conversationId := conversationId, senderId := userId,
    senderName := userName, senderAvatar := userAvatar,
    content := trimmed, readBy := [userId], createdAt := now }

/-- handleMessageSend: validate the id, trim and bound the content, verify
membership, persist the message with readBy = [senderId], update the
lastMessage summary and updatedAt, then broadcast to the conversation
room. `persistOk` models whether MessageModel.create succeeds; on a
rejected create the registered .catch only logs, so the trace is empty. -/
def handleMessageSend (store : Store) (userId userName userAvatar : String)
    (conversationId content : String) (persistOk : Bool)
    (freshId : Nat) (now : Nat) : Store × List Effect :=
  if !isValidId conversationId then
    (store, [.emit (.chatError "Invalid conversation ID")])
  else
    let trimmed := trimString content
    if trimmed == "" || decide (trimmed.length > 5000) then
      (store, [.emit (.chatError "Invalid message content")])
    else
      match store.conversations.find?
          (fun c => c.idStr == conversationId && c.participants.contains userId) with
      | none => (store, [.emit (.chatError "Access denied")])
      | some _ =>
        if !persistOk then
          (store, [])
        else
          let message : Message :=
            mkSentMessage userId userName userAvatar conversationId trimmed
              freshId now
          let store2 : Store :=
            { conversations := updateFirst (fun c => c.idStr == conversationId)
                (applySendUpdate trimmed userId userName now)
                store.conversations,
              messages := store.messages ++ [message] }
          (store2,
           [.persist message,
            .emit (.messageNew (getChatRoom conversationId) message)])

/-! ## handleDirectGetOrCreate (mongoose chat module) -/

/-- JS default array sort comparison on strings: lexicographic by
code unit. -/
def charListLe : List Char → List Char → Bool
  | [], _ => true
  | _ :: _, [] => false
  | a :: as, b :: bs =>
    if a.toNat < b.toNat then true
    else if b.toNat < a.toNat then false
    else charListLe as bs

def strLe (a b : String) : Bool := charListLe a.data b.data

/-- The deterministic DM slug: sort the two ids, then
direct:<minId>:<maxId>. -/
def directSlug (a b : String) : String :=
  if strLe a b then "direct:" ++ a ++ ":" ++ b else "direct:" ++ b ++ ":" ++ a

/-- The conversation document handleDirectGetOrCreate creates when the
slug is new. -/
def mkDirectConv (userId userName targetUserId targetUserName : String)
    (freshIdStr : String) (now : Nat) : Conversation :=
  { idStr := freshIdStr, ctype := "direct",
    name := userName ++ " & " ++ targetUserName,
    slug := directSlug userId targetUserId,
    participants := [userId, targetUserId], lastMessage := none,
    createdAt := now, updatedAt := now }

/-- handleDirectGetOrCreate: refuse a self-DM, derive the sorted-pair
slug, find the conversation by slug or create it, join the requesting
socket and every socket of the target user to the room, confirm to the
requester and notify the target. -/
def handleDirectGetOrCreate (store : Store) (userId userName : String)
    (targetUserId targetUserName : String) (freshIdStr : String) (now : Nat) :
    Store × List Effect :=
  if userId == targetUserId then
    (store, [.emit (.chatError "Cannot DM yourself")])
  else
    let slug := directSlug userId targetUserId
    match store.conversations.find? (fun c => c.slug == slug) with
    | some conv =>
      (store,
       [.joinRoom (getChatRoom conv.idStr),
        .socketsJoin (getUserRoom targetUserId) (getChatRoom conv.idStr),
        .emit (.directReady conv),
        .emit (.conversationNew (getUserRoom targetUserId) conv)])
    | none =>
      let conv : Conversation :=
        mkDirectConv userId userName targetUserId targetUserName freshIdStr now
      ({ store with conversations := store.conversations ++ [conv] },
       [.joinRoom (getChatRoom conv.idStr),
        .socketsJoin (getUserRoom targetUserId) (getChatRoom conv.idStr),
        .emit (.directReady conv),
        .emit (.conversationNew (getUserRoom targetUserId) conv)])

/-- ConversationModel.create against the unique index on slug
(conversation.model.ts: slug is unique): the insert is rejected when a
document with the same slug already exists, so a lost race cannot add a
second row. -/
def insertUnique (cs : List Conversation) (c : Conversation) : List Conversation :=
  if cs.any (fun x => x.slug == c.slug) then cs else cs ++ [c]

/-- Number of stored conversations carrying a given slug. -/
def slugCount (cs : List Conversation) (s : String) : Nat :=
  (cs.filter (fun c => c.slug == s)).length

/-! ## handleMessagesRead (mongoose chat module) -/

/-- The updateMany filter of the read handlers: a message of the
conversation, authored by someone else, whose readBy does not yet hold
the user. -/
def unreadByFilter (conversationId userId : String) (m : Message) : Bool :=
  m.conversationId == conversationId && m.senderId != userId &&
    !(m.readBy.contains userId)

/-- The $addToSet update applied to a matching message. -/
def addReadBy (conversationId userId : String) (m : Message) : Message :=
  if unreadByFilter conversationId userId m
  then { m with readBy := m.readBy ++ [userId] } else m

/-- handleMessagesRead: updateMany over the messages of the conversation
authored by someone else and not yet read by the user, $addToSet the user
into readBy. No event is emitted by this handler. -/
def handleMessagesRead (store : Store) (userId : String) (conversationId : String) :
    Store × List Effect :=
  if !isValidId conversationId then (store, [])
  else
    ({ store with messages := store.messages.map (addReadBy conversationId userId) },
     [])

/-! ## DM module (messaging.socket.ts) -/

/-- Modelled from the spec: insertMessage lives in src/lib/messaging.db.ts,
which is absent from the repository snapshot (only its caller,
registerMessagingHandlers, is present). Per the spec, a send persists the
new message row with readBy = [senderId]. -/
def insertMessage (store : Store) (m : Message) : Store :=
  { store with messages := store.messages ++ [m] }

/-- Modelled from the spec: markMessagesAsRead lives in the absent
src/lib/messaging.db.ts. Per the spec (Read-Receipt Service and the
updateMessagesReadBy interface), every message of the conversation
authored by someone other than userId and not already containing userId
in readBy gains userId, and the ids of the messages actually transitioned
are returned. The update itself coincides with the updateMany performed
by handleMessagesRead in the mongoose module. -/
def markMessagesAsRead (msgs : List Message) (conversationId userId : String) :
    List Message × List Nat :=
  (msgs.map (addReadBy conversationId userId),
   (msgs.filter (unreadByFilter conversationId userId)).map (fun m => m.id))

/-- The dm:send handler: bail out silently on blank content, verify the
sender is a participant, persist, broadcast dm:receive to the room,
confirm dm:sent to the sender, then notify the personal room of every
other participant with an 80-character preview. `persistOk` models
whether the insert succeeds; its failure lands in the catch block, which
emits only dm:error. -/
def dmSend (store : Store) (userId userName userAvatar : String)
    (conversationId content : String) (persistOk : Bool)
    (freshId : Nat) (now : Nat) : Store × List Effect :=
  if trimString content == "" then (store, [])
  else if !isValidId conversationId then
    (store, [.emit (.dmError "Failed to send message")])
  else
    match store.conversations.find?
        (fun c => c.idStr == conversationId && c.participants.contains userId) with
    | none => (store, [.emit (.dmError "Not a participant of this conversation")])
    | some conv =>
      if !persistOk then
        (store, [.emit (.dmError "Failed to send message")])
      else
        let message : Message :=
          { id := freshId, conversationId := conversationId, senderId := userId,
            senderName := userName, senderAvatar := userAvatar,
            content := trimString content, readBy := [userId], createdAt := now }
        ((insertMessage store message),
         [.persist message,
          .emit (.dmReceive (getConversationRoom conversationId) message),
          .emit (.dmSent freshId)] ++
         ((conv.participants.filter (fun p => p != userId)).map (fun p =>
            Effect.emit (.dmNotification (getUserRoom p) userName
              (takeString (trimString content) 80)))))

/-- The dm:read handler: mark the unread messages of the conversation as
read for the user, and broadcast a single dm:read receipt carrying the
transitioned ids only when that set is non-empty. -/
def dmRead (store : Store) (userId : String) (conversationId : String) :
    Store × List Effect :=
  ({ store with
     messages := (markMessagesAsRead store.messages conversationId userId).1 },
   if (markMessagesAsRead store.messages conversationId userId).2.length > 0 then
     [.emit (.dmReadReceipt (getConversationRoom conversationId)
       (markMessagesAsRead store.messages conversationId userId).2 userId)]
   else [])

/-! ## Typing coordinator (dm:typing handlers)

The typingTimers map is keyed by the string conversationId:userId; each
dm:typing:start broadcasts a begin event and (re)arms a 3-second timeout
whose callback broadcasts an automatic stop and discards the entry;
dm:typing:stop clears any armed timer and broadcasts a stop. The model
fixes one (conversation, user) key and tracks the expiry of its pending
timer; a schedule of timestamped actions is processed in time order, a
pending timer firing before any later action and at the end of the
schedule. -/

def TYPING_TIMEOUT : Nat := 3000

inductive TypingAct where
  | start (t : Nat)
  | stop (t : Nat)
  deriving Repr, DecidableEq

inductive TypingEmit where
  | startEv (t : Nat)
  | stopAuto (t : Nat)
  | stopExplicit (t : Nat)
  deriving Repr, DecidableEq

/-- Fire the pending timer when its expiry is not after the current
instant. -/
def fireDue (pending : Option Nat) (t : Nat) : Option Nat × List TypingEmit :=
  match pending with
  | some e => if e ≤ t then (none, [.stopAuto e]) else (some e, [])
  | none => (none, [])

/-- One action: let a due timer fire first, then either broadcast the
begin event and (re)arm the timeout, or cancel the timer and broadcast an
explicit stop. -/
def typingStep (pending : Option Nat) (a : TypingAct) : Option Nat × List TypingEmit :=
  match a with
  | .start t =>
    let fired := (fireDue pending t).2
    (some (t + TYPING_TIMEOUT), fired ++ [.startEv t])
  | .stop t =>
    let fired := (fireDue pending t).2
    (none, fired ++ [.stopExplicit t])

def typingRun : Option Nat → List TypingAct → Option Nat × List TypingEmit
  | pending, [] => (pending, [])
  | pending, a :: rest =>
    let s := typingStep pending a
    let r := typingRun s.1 rest
    (r.1, s.2 ++ r.2)

/-- A timer still armed after the whole schedule fires unrefreshed. -/
def typingFlush (pending : Option Nat) : List TypingEmit :=
  match pending with
  | some e => [.stopAuto e]
  | none => []

/-- The complete emission trace of a schedule of typing actions for one
(conversation, user) key, starting from no armed timer. -/
def typingTrace (acts : List TypingAct) : List TypingEmit :=
  let r := typingRun none acts
  r.2 ++ typingFlush r.1

def isAutoStop : TypingEmit → Bool
  | .stopAuto _ => true
  | _ => false

/-- The automatic stop events of a trace. -/
def autoStops (es : List TypingEmit) : List TypingEmit := es.filter isAutoStop

/-- The key of the typingTimers map entry for a conversation and user. -/
def timerKey (conversationId userId : String) : String :=
  conversationId ++ ":" ++ userId

/-- The operations the handlers perform on the typingTimers map:
typingTimers.set on start (arming or replacing) and typingTimers.delete
on explicit stop or when the timeout callback runs. -/
inductive TimerOp where
  | arm (k : String) (expiry : Nat)
  | disarm (k : String)
  deriving Repr, DecidableEq

/-- Map.set / Map.delete semantics on an association list. -/
def applyTimerOp (m : List (String × Nat)) : TimerOp → List (String × Nat)
  | .arm k e =>
    if (m.find? (fun p => p.1 == k)).isSome
    then m.map (fun p => if p.1 == k then (k, e) else p)
    else m ++ [(k, e)]
  | .disarm k => m.filter (fun p => p.1 != k)

/-- Number of armed timers held for a key. -/
def timerCount (m : List (String × Nat)) (k : String) : Nat :=
  (m.filter (fun p => p.1 == k)).length

/-! ## Raw-collection snapshot (handleChatMessageSend and
handleChatMessagesLoad)

This earlier snapshot works on the raw conversations and messages
collections: participants are embedded objects, each conversation keeps a
per-user unreadCounts map, and the message documents it inserts carry
attachments, reactions and replyTo but no readBy field (readBy = none in
the document-as-record view below). -/

structure CParticipant where
  userId : String
  userName : String
  userAvatar : String
  deriving Repr, DecidableEq

structure CAttachment where
  url : String
  atype : String
  name : String
  size : Nat
  mimeType : String
  deriving Repr, DecidableEq

structure CReplyTo where
  messageId : String
  content : String
  senderName : String
  deriving Repr, DecidableEq

structure CLastMessage where
  content : String
  senderName : String
  sentAt : Nat
  hasAttachment : Bool
  deriving Repr, DecidableEq

structure CMessage where
  id : Nat
  conversationId : String
  senderId : String
  senderName : String
  senderAvatar : String
  content : String
  attachments : List CAttachment
  reactions : List String
  replyTo : Option CReplyTo
  readBy : Option (List String)
  createdAt : Nat
  deriving Repr, DecidableEq

structure CConversation where
  idStr : String
  ctype : String
  participants : List CParticipant
  unreadCounts : List (String × Nat)
  lastMessage : Option CLastMessage
  createdAt : Nat
  updatedAt : Nat
  deriving Repr, DecidableEq

structure CStore where
  conversations : List CConversation
  messages : List CMessage
  deriving Repr, DecidableEq

inductive CEmit where
  | error (message : String)
  | messagesLoaded (conversationId : String) (messages : List CMessage) (hasMore : Bool)
  | messageReceived (conversationId : String) (message : CMessage)
  deriving Repr, DecidableEq

inductive CEffect where
  | persist (m : CMessage)
  | emit (e : CEmit)
  deriving Repr, DecidableEq

/-- $inc by 1 on a Mongo map field: an absent key is created holding the
increment. -/
def incCount (m : List (String × Nat)) (k : String) : List (String × Nat) :=
  if (m.find? (fun p => p.1 == k)).isSome
  then m.map (fun p => if p.1 == k then (p.1, p.2 + 1) else p)
  else m ++ [(k, 1)]

/-- $set of a Mongo map entry. -/
def setCount (m : List (String × Nat)) (k : String) (v : Nat) : List (String × Nat) :=
  if (m.find? (fun p => p.1 == k)).isSome
  then m.map (fun p => if p.1 == k then (p.1, v) else p)
  else m ++ [(k, v)]

/-- Value of a Mongo map entry, an absent key reading as 0. -/
def countOr0 (m : List (String × Nat)) (k : String) : Nat :=
  match m.find? (fun p => p.1 == k) with
  | some p => p.2
  | none => 0

/-- The message document handleChatMessageSend inserts: attachments,
reactions and replyTo but no readBy field. -/
def mkCSentMessage (userId userName userAvatar conversationId content : String)
    (attachments : List CAttachment) (replyTo : Option CReplyTo)
    (freshId now : Nat) : CMessage :=
  { id := freshId, conversationId := conversationId, senderId := userId,
    senderName := userName, senderAvatar := userAvatar,
    content := trimString content, attachments := attachments, reactions := [],
    replyTo := replyTo, readBy := none, createdAt := now }

/-- The updateOne document of handleChatMessageSend: set lastMessage and
updatedAt and $inc unreadCounts for every listed other participant. -/
def cApplySendUpdate (content : String) (attachments : List CAttachment)
    (userName : String) (now : Nat) (others : List String)
    (c : CConversation) : CConversation :=
  let lm : CLastMessage :=
    { content := if trimString content != "" then trimString content
                 else if attachments.length > 0 then "📎 Attachment" else "",
      senderName := userName, sentAt := now,
      hasAttachment := attachments.length > 0 }
  { c with lastMessage := some lm, updatedAt := now,
           unreadCounts := others.foldl incCount c.unreadCounts }

/-- The distinct other-participant ids whose unread counters a send
bumps; the unreadIncrement object keys collapse duplicate user ids,
hence the dedup. -/
def cOtherParticipants (conv : CConversation) (userId : String) : List String :=
  ((conv.participants.filter (fun p => p.userId != userId)).map
    (fun p => p.userId)).dedup

/-- handleChatMessageSend: verify membership, insert the message document
(no readBy field, no content validation), then apply the updateOne
document in one step. -/
def chatMessageSend (store : CStore) (userId userName userAvatar : String)
    (conversationId content : String) (attachments : List CAttachment)
    (replyTo : Option CReplyTo) (freshId : Nat) (now : Nat) :
    CStore × List CEffect :=
  if !isValidId conversationId then
    (store, [.emit (.error "Failed to send message")])
  else
    match store.conversations.find?
        (fun c => c.idStr == conversationId &&
          c.participants.any (fun p => p.userId == userId)) with
    | none => (store, [.emit (.error "Conversation not found or access denied")])
    | some conv =>
      let message : CMessage :=
        mkCSentMessage userId userName userAvatar conversationId content
          attachments replyTo freshId now
      let store2 : CStore :=
        { conversations :=
            updateFirst (fun c => c.idStr == conversationId)
              (cApplySendUpdate content attachments userName now
                (cOtherParticipants conv userId))
              store.conversations,
          messages := store.messages ++ [message] }
      (store2,
       [.persist message,
        .emit (.messageReceived conversationId message)])

def sortByCreatedDesc (ms : List CMessage) : List CMessage :=
  ms.mergeSort (fun a b => decide (b.createdAt ≤ a.createdAt))

/-- The $set of handleChatMessagesLoad: the requester unread counter
becomes 0. -/
def cResetUnread (userId : String) (c : CConversation) : CConversation :=
  { c with unreadCounts := setCount c.unreadCounts userId 0 }

/-- handleChatMessagesLoad: verify membership, fetch up to limit messages
with createdAt below the cursor sorted newest first, reset the unread
counter of the requester to 0 unconditionally, and report
hasMore = (messages.length == limit). -/
def chatMessagesLoad (store : CStore) (userId : String)
    (conversationId : String) (before : Option Nat) (limit : Nat) :
    CStore × List CEffect :=
  if !isValidId conversationId then
    (store, [.emit (.error "Failed to load messages")])
  else
    match store.conversations.find?
        (fun c => c.idStr == conversationId &&
          c.participants.any (fun p => p.userId == userId)) with
    | none => (store, [.emit (.error "Conversation not found")])
    | some _ =>
      let msgs := (sortByCreatedDesc (store.messages.filter (fun m =>
        m.conversationId == conversationId &&
          (match before with
           | some b => decide (m.createdAt < b)
           | none => true)))).take limit
      let store2 : CStore :=
        { store with
          conversations :=
            updateFirst (fun c => c.idStr == conversationId)
              (cResetUnread userId) store.conversations }
      (store2,
       [.emit (.messagesLoaded conversationId msgs (msgs.length == limit))])

/-! ## Helper lemmas -/

/-- The strict descending-id order is vacuously antisymmetric. -/
instance : IsAntisymm Message (fun a b => b.id < a.id) :=
  ⟨fun _ _ h1 h2 => absurd (h1.trans h2) (lt_irrefl _)⟩

/-- Sorting a strictly ascending message list by descending id just
reverses it. -/
theorem sortByIdDesc_of_ascending {l : List Message}
    (h : l.Pairwise (fun a b => a.id < b.id)) :
    sortByIdDesc l = l.reverse := by
  have hperm : List.Perm (sortByIdDesc l) l.reverse :=
    (List.mergeSort_perm l _).trans (List.reverse_perm l).symm
  have hle : (sortByIdDesc l).Pairwise (fun a b : Message => b.id ≤ a.id) := by
    have hs := @List.sorted_mergeSort Message
      (fun a b : Message => decide (b.id ≤ a.id))
      (fun a b c h1 h2 => by
        simp only [decide_eq_true_eq] at h1 h2 ⊢; omega)
      (fun a b => by
        simp only [Bool.or_eq_true, decide_eq_true_eq]; omega) l
    exact hs.imp (fun hab => of_decide_eq_true hab)
  have hne : (sortByIdDesc l).Pairwise (fun a b : Message => a.id ≠ b.id) := by
    have h0 : l.Pairwise (fun a b : Message => a.id ≠ b.id) :=
      h.imp (fun hab => Nat.ne_of_lt hab)
    exact ((List.mergeSort_perm l _).pairwise_iff (fun hab => hab.symm)).mpr h0
  have hstrict : (sortByIdDesc l).Pairwise (fun a b : Message => b.id < a.id) :=
    (hle.and hne).imp (fun hab => lt_of_le_of_ne hab.1 (Ne.symm hab.2))
  have hrev : l.reverse.Pairwise (fun a b : Message => b.id < a.id) :=
    List.pairwise_reverse.mpr h
  exact List.eq_of_perm_of_sorted hperm hstrict hrev

/-- The query result of a history load: rows of the conversation below
the cursor bound. -/
def olderMessages (store : Store) (cid : String) (cursor : Option String) :
    List Message :=
  store.messages.filter (matchesQuery cid (cursorBound cursor))

/-- Characterisation of a successful history load on a store whose
messages are in strictly ascending id order: the emitted page is the
newest MESSAGES_LIMIT matching rows in ascending order, and hasMore
signals that a further, older matching row exists. -/
theorem messagesLoad_spec (store : Store) (uid cid : String)
    (cursor : Option String) (conv : Conversation)
    (hsorted : store.messages.Pairwise (fun a b => a.id < b.id))
    (hvalid : isValidId cid = true)
    (hfind : store.conversations.find?
      (fun c => c.idStr == cid && c.participants.contains uid) = some conv) :
    handleMessagesLoad store uid cid cursor =
      [.emit (.messagesLoaded cid
        ((olderMessages store cid cursor).drop
          ((olderMessages store cid cursor).length - MESSAGES_LIMIT))
        (decide (MESSAGES_LIMIT < (olderMessages store cid cursor).length)))] := by
  have hasc : (olderMessages store cid cursor).Pairwise (fun a b => a.id < b.id) :=
    hsorted.filter _
  have hsort : sortByIdDesc (olderMessages store cid cursor) =
      (olderMessages store cid cursor).reverse :=
    sortByIdDesc_of_ascending hasc
  have hpage : (((olderMessages store cid cursor).reverse.take
        (MESSAGES_LIMIT + 1)).take MESSAGES_LIMIT).reverse
      = (olderMessages store cid cursor).drop
          ((olderMessages store cid cursor).length - MESSAGES_LIMIT) := by
    rw [List.take_take]
    rw [show min MESSAGES_LIMIT (MESSAGES_LIMIT + 1) = MESSAGES_LIMIT by omega]
    rw [List.take_reverse, List.reverse_reverse]
  have hmore : decide (MESSAGES_LIMIT <
        ((olderMessages store cid cursor).reverse.take (MESSAGES_LIMIT + 1)).length)
      = decide (MESSAGES_LIMIT < (olderMessages store cid cursor).length) := by
    rw [List.length_take, List.length_reverse]
    exact decide_eq_decide.mpr (by omega)
  unfold handleMessagesLoad
  rw [hvalid]
  simp only [Bool.not_true, Bool.false_eq_true, if_false, hfind]
  rw [show store.messages.filter (matchesQuery cid (cursorBound cursor)) =
      olderMessages store cid cursor from rfl, hsort, hpage, hmore]

/-! ## Concrete scenario: a 51-message conversation -/

def scenCid : String := "conv00000001"

def scenMsg (i : Nat) : Message :=
  { id := i + 1, conversationId := scenCid, senderId := "alice",
    senderName := "Alice", senderAvatar := "", content := "hi",
    readBy := ["alice"], createdAt := i }

def scenConv : Conversation :=
  { idStr := scenCid, ctype := "group", name := "All Staff",
    slug := "group:all-staff", participants := ["alice", "bob"],
    lastMessage := none, createdAt := 0, updatedAt := 0 }

def scenStore : Store :=
  { conversations := [scenConv], messages := (List.range 51).map scenMsg }

def scenCursor : String := "000000000000000000000002"

/-! ## Claims -/

/-- C2: every history load by a participant fetches limit+1 rows (limit
fixed at 50) with id strictly below the cursor (unbounded without one)
sorted descending, returns the page reversed into strictly ascending id
order, and reports hasMore exactly when the extra 51st older row exists;
in particular a 51-message conversation yields a first page of exactly 50
with hasMore = true and a cursored second page of the 1 remaining message
with hasMore = false. -/
theorem messagesLoad_pagination :
    (∀ (store : Store) (uid cid : String) (cursor : Option String)
        (conv : Conversation),
      store.messages.Pairwise (fun a b => a.id < b.id) →
      isValidId cid = true →
      store.conversations.find?
        (fun c => c.idStr == cid && c.participants.contains uid) = some conv →
      handleMessagesLoad store uid cid cursor =
        [.emit (.messagesLoaded cid
          ((olderMessages store cid cursor).drop
            ((olderMessages store cid cursor).length - MESSAGES_LIMIT))
          (decide (MESSAGES_LIMIT < (olderMessages store cid cursor).length)))] ∧
      ((olderMessages store cid cursor).drop
          ((olderMessages store cid cursor).length - MESSAGES_LIMIT)).Pairwise
        (fun a b => a.id < b.id) ∧
      ((olderMessages store cid cursor).drop
          ((olderMessages store cid cursor).length - MESSAGES_LIMIT)).length
        = min MESSAGES_LIMIT (olderMessages store cid cursor).length) ∧
    handleMessagesLoad scenStore "bob" scenCid none =
      [.emit (.messagesLoaded scenCid
        ((List.range 50).map (fun i => scenMsg (i + 1))) true)] ∧
    handleMessagesLoad scenStore "bob" scenCid (some scenCursor) =
      [.emit (.messagesLoaded scenCid [scenMsg 0] false)] := by
  have hs : scenStore.messages.Pairwise (fun a b => a.id < b.id) := by decide
  refine ⟨fun store uid cid cursor conv hsorted hvalid hfind =>
    ⟨messagesLoad_spec store uid cid cursor conv hsorted hvalid hfind,
     (hsorted.filter _).drop, ?_⟩, ?_, ?_⟩
  · rw [List.length_drop]; omega
  · rw [messagesLoad_spec scenStore "bob" scenCid none scenConv hs
      (by decide) (by decide)]
    decide
  · rw [messagesLoad_spec scenStore "bob" scenCid (some scenCursor) scenConv hs
      (by decide) (by decide)]
    decide

theorem messagesLoad_pagination_witness :
    handleMessagesLoad scenStore "bob" scenCid none =
      [.emit (.messagesLoaded scenCid
        ((olderMessages scenStore scenCid none).drop
          ((olderMessages scenStore scenCid none).length - MESSAGES_LIMIT))
        (decide (MESSAGES_LIMIT < (olderMessages scenStore scenCid none).length)))] :=
  (messagesLoad_pagination.1 scenStore "bob" scenCid none scenConv
    (by decide) (by decide) (by decide)).1

/-- C9: a history load whose cursor is present but not a valid ObjectId
ignores the cursor and behaves exactly as a load without one: the query
runs unbounded and, for a participant, the newest page is emitted rather
than an error event. -/
theorem messagesLoad_invalid_cursor_ignored
    (store : Store) (uid cid c : String)
    (hc : isValidId c = false) :
    handleMessagesLoad store uid cid (some c) =
      handleMessagesLoad store uid cid none ∧
    (∀ conv : Conversation,
      store.messages.Pairwise (fun a b => a.id < b.id) →
      isValidId cid = true →
      store.conversations.find?
        (fun x => x.idStr == cid && x.participants.contains uid) = some conv →
      handleMessagesLoad store uid cid (some c) =
        [.emit (.messagesLoaded cid
          ((olderMessages store cid none).drop
            ((olderMessages store cid none).length - MESSAGES_LIMIT))
          (decide (MESSAGES_LIMIT < (olderMessages store cid none).length)))]) := by
  have hb : cursorBound (some c) = cursorBound none := by
    simp [cursorBound, hc]
  have heq : handleMessagesLoad store uid cid (some c) =
      handleMessagesLoad store uid cid none := by
    unfold handleMessagesLoad
    rw [hb]
  exact ⟨heq, fun conv hsorted hvalid hfind =>
    heq.trans (messagesLoad_spec store uid cid none conv hsorted hvalid hfind)⟩

theorem messagesLoad_invalid_cursor_ignored_witness :
    handleMessagesLoad scenStore "bob" scenCid (some "zzz") =
      handleMessagesLoad scenStore "bob" scenCid none :=
  (messagesLoad_invalid_cursor_ignored scenStore "bob" scenCid "zzz"
    (by decide)).1

/-- C10: a direct get-or-create whose target equals the requester emits
the error event and terminates: the store is unchanged (no conversation
created) and the trace holds no room join. -/
theorem directGetOrCreate_self_rejected
    (store : Store) (userId userName targetUserName freshIdStr : String)
    (now : Nat) :
    handleDirectGetOrCreate store userId userName userId targetUserName
        freshIdStr now =
      (store, [.emit (.chatError "Cannot DM yourself")]) := by
  unfold handleDirectGetOrCreate
  simp

/-- C3: a send whose content trims to empty or exceeds 5000 characters is
rejected with an error event before any persistence: the store, and with
it every conversation lastMessage and updatedAt, is unchanged and no
message row is created. -/
theorem messageSend_invalid_content_rejected
    (store : Store) (userId userName userAvatar conversationId content : String)
    (persistOk : Bool) (freshId now : Nat)
    (h : trimString content = "" ∨ 5000 < (trimString content).length) :
    handleMessageSend store userId userName userAvatar conversationId content
        persistOk freshId now =
      (store, [.emit (.chatError (if isValidId conversationId
        then "Invalid message content" else "Invalid conversation ID"))]) := by
  have hval : (trimString content == "" || decide ((trimString content).length > 5000)) = true := by
    rcases h with h | h
    · simp [h]
    · simp [h]
  unfold handleMessageSend
  cases hv : isValidId conversationId
  · simp [hv]
  · simp [hv, hval]

theorem messageSend_invalid_content_rejected_witness :
    handleMessageSend scenStore "alice" "Alice" "" scenCid "   " true 99 5 =
      (scenStore, [.emit (.chatError "Invalid message content")]) := by
  rw [messageSend_invalid_content_rejected scenStore "alice" "Alice" "" scenCid
    "   " true 99 5 (Or.inl (by decide))]
  decide

/-- The code-unit comparison is total. -/
theorem charListLe_total (l1 l2 : List Char) :
    charListLe l1 l2 = true ∨ charListLe l2 l1 = true := by
  induction l1 generalizing l2 with
  | nil => left; rfl
  | cons a as ih =>
    cases l2 with
    | nil => right; rfl
    | cons b bs =>
      rcases Nat.lt_trichotomy a.toNat b.toNat with h | h | h
      · left; simp [charListLe, h]
      · have h1 : ¬a.toNat < b.toNat := by omega
        have h2 : ¬b.toNat < a.toNat := by omega
        simpa [charListLe, h1, h2] using ih bs
      · right; simp [charListLe, h]

/-- The code-unit comparison is antisymmetric. -/
theorem charListLe_antisymm (l1 : List Char) : ∀ l2 : List Char,
    charListLe l1 l2 = true → charListLe l2 l1 = true → l1 = l2 := by
  induction l1 with
  | nil =>
    intro l2 _ h2
    cases l2 with
    | nil => rfl
    | cons b bs => simp [charListLe] at h2
  | cons a as ih =>
    intro l2 h1 h2
    cases l2 with
    | nil => simp [charListLe] at h1
    | cons b bs =>
      rcases Nat.lt_trichotomy a.toNat b.toNat with h | h | h
      · simp [charListLe, h, show ¬b.toNat < a.toNat by omega] at h2
      · have hab : a = b := by
          have h3 : Char.ofNat a.toNat = Char.ofNat b.toNat := by rw [h]
          rwa [Char.ofNat_toNat, Char.ofNat_toNat] at h3
        subst hab
        have h1p : charListLe as bs = true := by
          simpa [charListLe] using h1
        have h2p : charListLe bs as = true := by
          simpa [charListLe] using h2
        rw [ih bs h1p h2p]
      · simp [charListLe, h, show ¬a.toNat < b.toNat by omega] at h1

/-- Swapping the pair leaves the sorted-pair slug unchanged. -/
theorem directSlug_comm (a b : String) : directSlug a b = directSlug b a := by
  unfold directSlug
  by_cases h1 : strLe a b = true
  · by_cases h2 : strLe b a = true
    · have hab : a = b := by
        have := charListLe_antisymm a.data b.data h1 h2
        cases a; cases b
        simp only at this
        rw [this]
      rw [hab]
    · rw [if_pos h1, if_neg h2]
  · by_cases h2 : strLe b a = true
    · rw [if_neg h1, if_pos h2]
    · rcases charListLe_total a.data b.data with h | h
      · exact absurd h h1
      · exact absurd h h2

/-- A unique-index-guarded insert keeps at most one conversation per
slug. -/
theorem slugCount_insertUnique (cs : List Conversation) (c : Conversation)
    (s : String) (h : slugCount cs s ≤ 1) :
    slugCount (insertUnique cs c) s ≤ 1 := by
  unfold insertUnique
  by_cases hany : cs.any (fun x => x.slug == c.slug) = true
  · rw [if_pos hany]; exact h
  · rw [if_neg hany]
    unfold slugCount at *
    rw [List.filter_append, List.length_append]
    by_cases hcs : c.slug = s
    · have h0 : (cs.filter (fun x => x.slug == s)).length = 0 := by
        rw [List.length_eq_zero, List.filter_eq_nil_iff]
        intro x hx hxs
        exact hany (List.any_eq_true.mpr ⟨x, hx, by
          rw [beq_iff_eq] at hxs ⊢; rw [hxs, hcs]⟩)
      simp [h0, hcs]
    · have hcs2 : (c.slug == s) = false := by
        rw [beq_eq_false_iff_ne]; exact hcs
      have h1 : (List.filter (fun x => x.slug == s) [c]).length = 0 := by
        simp [List.filter, hcs2]
      omega

/-- C4: getOrCreateDirect is order-insensitive and race-safe. The slug
derived from the sorted pair is symmetric; when the conversation exists,
either side resolves to it without mutating the store; when it does not,
the first call creates it and the swapped second call resolves to the
conversation the first created; and any sequence of unique-index-guarded
inserts never yields two conversations with one slug. -/
theorem directGetOrCreate_deterministic :
    (∀ a b : String, directSlug a b = directSlug b a) ∧
    (∀ (store : Store) (a ua b ub f : String) (n : Nat) (c : Conversation),
      a ≠ b →
      store.conversations.find? (fun x => x.slug == directSlug a b) = some c →
      (handleDirectGetOrCreate store a ua b ub f n).1 = store ∧
      Effect.emit (.directReady c) ∈ (handleDirectGetOrCreate store a ua b ub f n).2 ∧
      Effect.emit (.directReady c) ∈ (handleDirectGetOrCreate store b ub a ua f n).2) ∧
    (∀ (store : Store) (a ua b ub f g : String) (n m : Nat),
      a ≠ b →
      store.conversations.find? (fun x => x.slug == directSlug a b) = none →
      ∃ c : Conversation, c.idStr = f ∧ c.slug = directSlug a b ∧
        Effect.emit (.directReady c) ∈
          (handleDirectGetOrCreate store a ua b ub f n).2 ∧
        Effect.emit (.directReady c) ∈
          (handleDirectGetOrCreate
            (handleDirectGetOrCreate store a ua b ub f n).1 b ub a ua g m).2) ∧
    (∀ (inserts : List Conversation) (cs : List Conversation) (s : String),
      slugCount cs s ≤ 1 → slugCount (inserts.foldl insertUnique cs) s ≤ 1) := by
  have hins : ∀ (inserts cs : List Conversation) (s : String),
      slugCount cs s ≤ 1 → slugCount (inserts.foldl insertUnique cs) s ≤ 1 := by
    intro inserts
    induction inserts with
    | nil => intro cs s h; exact h
    | cons c rest ih =>
      intro cs s h
      exact ih (insertUnique cs c) s (slugCount_insertUnique cs c s h)
  refine ⟨directSlug_comm, ?_, ?_, hins⟩
  · intro store a ua b ub f n c hab hfind
    have hba : (b == a) = false := by
      rw [beq_eq_false_iff_ne]; exact fun hba2 => hab hba2.symm
    have hab2 : (a == b) = false := by rw [beq_eq_false_iff_ne]; exact hab
    have hfind2 : store.conversations.find?
        (fun x => x.slug == directSlug b a) = some c := by
      rw [directSlug_comm b a]; exact hfind
    have hrun1 : handleDirectGetOrCreate store a ua b ub f n =
        (store,
         [.joinRoom (getChatRoom c.idStr),
          .socketsJoin (getUserRoom b) (getChatRoom c.idStr),
          .emit (.directReady c),
          .emit (.conversationNew (getUserRoom b) c)]) := by
      unfold handleDirectGetOrCreate
      simp only [hab2, Bool.false_eq_true, if_false, hfind]
    have hrun2 : handleDirectGetOrCreate store b ub a ua f n =
        (store,
         [.joinRoom (getChatRoom c.idStr),
          .socketsJoin (getUserRoom a) (getChatRoom c.idStr),
          .emit (.directReady c),
          .emit (.conversationNew (getUserRoom a) c)]) := by
      unfold handleDirectGetOrCreate
      simp only [hba, Bool.false_eq_true, if_false, hfind2]
    rw [hrun1, hrun2]
    refine ⟨rfl, ?_, ?_⟩ <;> simp
  · intro store a ua b ub f g n m hab hfind
    have hba : (b == a) = false := by
      rw [beq_eq_false_iff_ne]; exact fun hba2 => hab hba2.symm
    have hab2 : (a == b) = false := by rw [beq_eq_false_iff_ne]; exact hab
    refine ⟨mkDirectConv a ua b ub f n, rfl, rfl, ?_, ?_⟩
    · have hrun1 : (handleDirectGetOrCreate store a ua b ub f n).2 =
          [.joinRoom (getChatRoom (mkDirectConv a ua b ub f n).idStr),
           .socketsJoin (getUserRoom b) (getChatRoom (mkDirectConv a ua b ub f n).idStr),
           .emit (.directReady (mkDirectConv a ua b ub f n)),
           .emit (.conversationNew (getUserRoom b) (mkDirectConv a ua b ub f n))] := by
        unfold handleDirectGetOrCreate
        simp only [hab2, Bool.false_eq_true, if_false, hfind]
      rw [hrun1]
      simp
    · have h1 : (handleDirectGetOrCreate store a ua b ub f n).1 =
          { store with conversations :=
              store.conversations ++ [mkDirectConv a ua b ub f n] } := by
        unfold handleDirectGetOrCreate
        simp only [hab2, Bool.false_eq_true, if_false, hfind]
      have hfind3 : (store.conversations ++ [mkDirectConv a ua b ub f n]).find?
          (fun x => x.slug == directSlug b a) =
          some (mkDirectConv a ua b ub f n) := by
        rw [directSlug_comm b a, List.find?_append, hfind]
        simp [mkDirectConv]
      have hrun2 : (handleDirectGetOrCreate
          { store with conversations :=
              store.conversations ++ [mkDirectConv a ua b ub f n] }
          b ub a ua g m).2 =
          [.joinRoom (getChatRoom (mkDirectConv a ua b ub f n).idStr),
           .socketsJoin (getUserRoom a) (getChatRoom (mkDirectConv a ua b ub f n).idStr),
           .emit (.directReady (mkDirectConv a ua b ub f n)),
           .emit (.conversationNew (getUserRoom a) (mkDirectConv a ua b ub f n))] := by
        unfold handleDirectGetOrCreate
        simp only [hba, Bool.false_eq_true, if_false]
        simp only [hfind3]
      rw [h1, hrun2]
      simp

def dmConvDemo : Conversation :=
  { idStr := "convdm000001", ctype := "direct", name := "Alice & Bob",
    slug := directSlug "alice" "bob", participants := ["alice", "bob"],
    lastMessage := none, createdAt := 0, updatedAt := 0 }

def dmStoreDemo : Store := { conversations := [dmConvDemo], messages := [] }

theorem directGetOrCreate_deterministic_witness :
    (handleDirectGetOrCreate dmStoreDemo "alice" "Alice" "bob" "Bob" "f" 0).1 =
      dmStoreDemo ∧
    Effect.emit (.directReady dmConvDemo) ∈
      (handleDirectGetOrCreate dmStoreDemo "alice" "Alice" "bob" "Bob" "f" 0).2 ∧
    Effect.emit (.directReady dmConvDemo) ∈
      (handleDirectGetOrCreate dmStoreDemo "bob" "Bob" "alice" "Alice" "f" 0).2 :=
  directGetOrCreate_deterministic.2.1 dmStoreDemo "alice" "Alice" "bob" "Bob"
    "f" 0 dmConvDemo (by decide) (by decide)

/-- A message that went through the readBy update no longer matches the
unread filter. -/
theorem unreadByFilter_addReadBy (conversationId userId : String) (m : Message) :
    unreadByFilter conversationId userId (addReadBy conversationId userId m) = false := by
  unfold addReadBy
  by_cases h : unreadByFilter conversationId userId m = true
  · rw [if_pos h]
    unfold unreadByFilter
    simp
  · rw [if_neg h]
    exact Bool.not_eq_true _ |>.mp h

/-- A message that does not match the unread filter is left untouched by
the readBy update. -/
theorem addReadBy_of_filter_false (conversationId userId : String) (m : Message)
    (h : unreadByFilter conversationId userId m = false) :
    addReadBy conversationId userId m = m := by
  unfold addReadBy
  rw [h]
  simp

/-- A second pass of the readBy update changes no message. -/
theorem markMessagesAsRead_twice_fst (msgs : List Message)
    (conversationId userId : String) :
    (markMessagesAsRead (markMessagesAsRead msgs conversationId userId).1
      conversationId userId).1 =
      (markMessagesAsRead msgs conversationId userId).1 := by
  show (msgs.map (addReadBy conversationId userId)).map
      (addReadBy conversationId userId) = msgs.map (addReadBy conversationId userId)
  calc (msgs.map (addReadBy conversationId userId)).map (addReadBy conversationId userId)
      = (msgs.map (addReadBy conversationId userId)).map id := by
        apply List.map_congr_left
        intro a ha
        obtain ⟨b, _, rfl⟩ := List.mem_map.mp ha
        show addReadBy conversationId userId (addReadBy conversationId userId b) = _
        exact addReadBy_of_filter_false conversationId userId _
          (unreadByFilter_addReadBy conversationId userId b)
    _ = msgs.map (addReadBy conversationId userId) := List.map_id _

/-- A second pass of the readBy update transitions no message. -/
theorem markMessagesAsRead_twice_snd (msgs : List Message)
    (conversationId userId : String) :
    (markMessagesAsRead (markMessagesAsRead msgs conversationId userId).1
      conversationId userId).2 = [] := by
  show ((msgs.map (addReadBy conversationId userId)).filter
    (unreadByFilter conversationId userId)).map (fun m => m.id) = []
  have hnil : (msgs.map (addReadBy conversationId userId)).filter
      (unreadByFilter conversationId userId) = [] := by
    rw [List.filter_eq_nil_iff]
    intro a ha
    obtain ⟨b, _, rfl⟩ := List.mem_map.mp ha
    rw [unreadByFilter_addReadBy]
    simp
  rw [hnil]
  rfl

/-- When nothing transitions and no message changes, dm:read returns the
store untouched and emits nothing. -/
theorem dmRead_no_transition (store : Store) (uid cid : String)
    (h1 : (markMessagesAsRead store.messages cid uid).1 = store.messages)
    (h2 : (markMessagesAsRead store.messages cid uid).2 = []) :
    dmRead store uid cid = (store, []) := by
  unfold dmRead
  rw [h1, h2]
  simp

/-- C8: markRead is idempotent and broadcast-suppressing: the dm:read
handler emits its read receipt exactly when some message transitioned,
and a second consecutive call by the same user transitions nothing,
leaves the store unchanged and emits no event. -/
theorem markRead_idempotent_suppressing :
    (∀ (store : Store) (userId conversationId : String),
      dmRead (dmRead store userId conversationId).1 userId conversationId =
        ((dmRead store userId conversationId).1, []) ∧
      (markMessagesAsRead (dmRead store userId conversationId).1.messages
        conversationId userId).2 = []) ∧
    (∀ (store : Store) (userId conversationId : String),
      (dmRead store userId conversationId).2 ≠ [] ↔
        (markMessagesAsRead store.messages conversationId userId).2 ≠ []) := by
  constructor
  · intro store userId conversationId
    refine ⟨?_, markMessagesAsRead_twice_snd store.messages conversationId userId⟩
    exact dmRead_no_transition _ userId conversationId
      (markMessagesAsRead_twice_fst store.messages conversationId userId)
      (markMessagesAsRead_twice_snd store.messages conversationId userId)
  · intro store userId conversationId
    unfold dmRead
    by_cases h : (markMessagesAsRead store.messages conversationId userId).2.length > 0
    · rw [if_pos h]
      constructor
      · intro _
        intro hc
        rw [hc] at h
        simp at h
      · intro _
        simp
    · rw [if_neg h]
      have h2 : (markMessagesAsRead store.messages conversationId userId).2 = [] := by
        rw [← List.length_eq_zero]
        omega
      simp [h2]

/-! ## C6: broadcast strictly after persistence -/

def Effect.isBroadcast : Effect → Bool
  | .emit (.messageNew _ _) => true
  | .emit (.dmReceive _ _) => true
  | _ => false

def Effect.isPersist : Effect → Bool
  | .persist _ => true
  | _ => false

/-- Every broadcast in the trace is preceded by a persist. -/
def broadcastAfterPersist (effs : List Effect) : Prop :=
  ∀ i, (hi : i < effs.length) → (effs.get ⟨i, hi⟩).isBroadcast = true →
    ∃ j, ∃ hj : j < effs.length, j < i ∧ (effs.get ⟨j, hj⟩).isPersist = true

theorem bap_of_no_broadcast (effs : List Effect)
    (h : ∀ e ∈ effs, e.isBroadcast = false) : broadcastAfterPersist effs := by
  intro i hi hb
  rw [h _ (effs.get_mem i hi)] at hb
  exact absurd hb (by simp)

theorem bap_persist_cons (m : Message) (rest : List Effect) :
    broadcastAfterPersist (Effect.persist m :: rest) := by
  intro i hi hb
  match i with
  | 0 => exact absurd hb (by simp [Effect.isBroadcast])
  | Nat.succ i =>
    refine ⟨0, ?_, ?_, ?_⟩
    · exact Nat.succ_pos _
    · exact Nat.succ_pos i
    · rfl

/-- C6: the new-message broadcast is emitted only after the message row
is persisted — in every trace of the mongoose send handler and of the
dm:send handler a broadcast is strictly preceded by a persist — and when
persistence fails the store is unchanged and no broadcast appears. -/
theorem broadcast_after_persist :
    (∀ (store : Store) (uid un ua cid content : String) (persistOk : Bool)
        (fid now : Nat),
      broadcastAfterPersist
        (handleMessageSend store uid un ua cid content persistOk fid now).2 ∧
      broadcastAfterPersist (dmSend store uid un ua cid content persistOk fid now).2) ∧
    (∀ (store : Store) (uid un ua cid content : String) (fid now : Nat),
      (handleMessageSend store uid un ua cid content false fid now).1 = store ∧
      (handleMessageSend store uid un ua cid content false fid now).2.filter
        Effect.isBroadcast = [] ∧
      (dmSend store uid un ua cid content false fid now).1 = store ∧
      (dmSend store uid un ua cid content false fid now).2.filter
        Effect.isBroadcast = []) := by
  constructor
  · intro store uid un ua cid content persistOk fid now
    constructor
    · unfold handleMessageSend
      dsimp only
      repeat' split
      all_goals first
        | exact bap_persist_cons _ _
        | exact bap_of_no_broadcast _ (by
            intro e he
            simp at he
            try subst he
            try rfl)
    · unfold dmSend
      dsimp only
      repeat' split
      all_goals first
        | exact bap_persist_cons _ _
        | exact bap_of_no_broadcast _ (by
            intro e he
            simp at he
            try subst he
            try rfl)
  · intro store uid un ua cid content fid now
    refine ⟨?_, ?_, ?_, ?_⟩
    · unfold handleMessageSend
      dsimp only
      repeat' split
      all_goals first | rfl | simp_all
    · unfold handleMessageSend
      dsimp only
      repeat' split
      all_goals first | rfl | simp_all
    · unfold dmSend
      dsimp only
      repeat' split
      all_goals first | rfl | simp_all
    · unfold dmSend
      dsimp only
      repeat' split
      all_goals first | rfl | simp_all

/-! ## C7: typing debounce -/

theorem typingRun_append (p : Option Nat) (l1 l2 : List TypingAct) :
    typingRun p (l1 ++ l2) =
      ((typingRun (typingRun p l1).1 l2).1,
       (typingRun p l1).2 ++ (typingRun (typingRun p l1).1 l2).2) := by
  induction l1 generalizing p with
  | nil => simp [typingRun]
  | cons a rest ih =>
    simp only [List.cons_append, typingRun]
    rw [show rest.append l2 = rest ++ l2 from rfl, ih]
    simp [List.append_assoc]

/-- Starts arriving strictly before the pending expiry never let the
timer fire: each start simply re-arms it, and the final pending timer
expires TYPING_TIMEOUT after the last start. -/
theorem typingRun_starts (rest : List Nat) : ∀ (t : Nat) (pending : Option Nat),
    (∀ e, pending = some e → t < e) →
    List.Chain (fun a b => a < b ∧ b < a + TYPING_TIMEOUT) t rest →
    typingRun pending ((t :: rest).map TypingAct.start) =
      (some ((t :: rest).getLast (by simp) + TYPING_TIMEOUT),
       (t :: rest).map TypingEmit.startEv) := by
  induction rest with
  | nil =>
    intro t pending hfire _
    have hfired : (fireDue pending t).2 = [] := by
      match pending with
      | none => rfl
      | some e =>
        have h := hfire e rfl
        show (if e ≤ t then ((none : Option Nat), [TypingEmit.stopAuto e])
          else (some e, [])).2 = []
        rw [if_neg (by omega)]
    simp only [List.map_cons, List.map_nil, typingRun, typingStep]
    rw [hfired]
    rfl
  | cons t2 rest2 ih =>
    intro t pending hfire hchain
    have hfired : (fireDue pending t).2 = [] := by
      match pending with
      | none => rfl
      | some e =>
        have h := hfire e rfl
        show (if e ≤ t then ((none : Option Nat), [TypingEmit.stopAuto e])
          else (some e, [])).2 = []
        rw [if_neg (by omega)]
    rcases hchain with _ | ⟨⟨hlt, hexp⟩, hchain2⟩
    have hstep : typingRun pending [TypingAct.start t] =
        (some (t + TYPING_TIMEOUT), [TypingEmit.startEv t]) := by
      simp only [typingRun, typingStep]
      rw [hfired]
      rfl
    rw [show (t :: t2 :: rest2).map TypingAct.start =
      [TypingAct.start t] ++ (t2 :: rest2).map TypingAct.start from rfl]
    rw [typingRun_append, hstep]
    dsimp only
    have ihr := ih t2 (some (t + TYPING_TIMEOUT))
      (fun e he => by rw [Option.some_inj] at he; omega) hchain2
    rw [ihr]
    dsimp only
    rfl

theorem autoStops_startEvs (ts : List Nat) :
    autoStops (ts.map TypingEmit.startEv) = [] := by
  induction ts with
  | nil => rfl
  | cons t rest ih =>
    rw [List.map_cons]
    rw [show autoStops (TypingEmit.startEv t :: rest.map TypingEmit.startEv)
      = autoStops (rest.map TypingEmit.startEv) from rfl]
    exact ih

/-- Map.set and Map.delete keep at most one armed timer per key. -/
theorem timerCount_applyTimerOp (m : List (String × Nat)) (op : TimerOp)
    (k : String) (h : timerCount m k ≤ 1) :
    timerCount (applyTimerOp m op) k ≤ 1 := by
  match op with
  | .arm k2 e =>
    show timerCount (if (m.find? (fun p => p.1 == k2)).isSome
      then m.map (fun p => if p.1 == k2 then (k2, e) else p)
      else m ++ [(k2, e)]) k ≤ 1
    by_cases hs : (m.find? (fun p => p.1 == k2)).isSome
    · rw [if_pos hs]
      have : timerCount (m.map (fun p => if p.1 == k2 then (k2, e) else p)) k
          = timerCount m k := by
        unfold timerCount
        rw [List.filter_map]
        rw [List.length_map]
        congr 1
        apply List.filter_congr
        intro p _
        by_cases hp : (p.1 == k2) = true
        · simp only [Function.comp_apply, hp, if_pos]
          rw [beq_iff_eq] at hp
          rw [hp]
        · simp only [Function.comp_apply, hp]
          rw [if_neg (by simp [hp])]
      rw [this]
      exact h
    · rw [if_neg hs]
      have hnone : m.find? (fun p => p.1 == k2) = none := by
        cases hfd : m.find? (fun p => p.1 == k2) with
        | none => rfl
        | some p => rw [hfd] at hs; simp at hs
      have hall := List.find?_eq_none.mp hnone
      unfold timerCount at *
      rw [List.filter_append, List.length_append]
      by_cases hk : k2 = k
      · have hm0 : (m.filter (fun p => p.1 == k)).length = 0 := by
          rw [List.length_eq_zero, List.filter_eq_nil_iff]
          intro p hp hpk
          exact hall p hp (by rw [beq_iff_eq] at hpk ⊢; rw [hpk, hk])
        have hsingle : (List.filter (fun p => p.1 == k) [(k2, e)]).length ≤ 1 :=
          le_trans (List.length_filter_le _ _) (by simp)
        omega
      · have h0 : (List.filter (fun p => p.1 == k) [(k2, e)]).length = 0 := by
          simp [List.filter,
            show (k2 == k) = false by rw [beq_eq_false_iff_ne]; exact hk]
        omega
  | .disarm k2 =>
    show timerCount (m.filter (fun p => p.1 != k2)) k ≤ 1
    unfold timerCount at *
    calc (List.filter (fun p => p.1 == k) (m.filter (fun p => p.1 != k2))).length
        ≤ (m.filter (fun p => p.1 == k)).length := by
          apply List.Sublist.length_le
          exact (List.filter_sublist m).filter _
      _ ≤ 1 := h

theorem fireDue_not_due (e t : Nat) (h : t < e) :
    fireDue (some e) t = (some e, []) := by
  show (if e ≤ t then ((none : Option Nat), [TypingEmit.stopAuto e])
    else (some e, [])) = (some e, [])
  rw [if_neg (by omega)]

/-- An explicit stop before the armed expiry cancels the timer and emits
only the explicit stop. -/
theorem typingRun_stop_cancels (e tstop : Nat) (h : tstop < e) :
    typingRun (some e) [TypingAct.stop tstop] =
      (none, [TypingEmit.stopExplicit tstop]) := by
  simp only [typingRun, typingStep]
  rw [fireDue_not_due e tstop h]
  rfl

/-- C7: per (conversation, user) key the timer table holds at most one
armed timer at any instant; N rapid starts each arriving within
TYPING_TIMEOUT of the previous one produce exactly one automatic stop,
fired TYPING_TIMEOUT after the last start; and an explicit stop before
expiry cancels the armed timer so no automatic stop ever fires. -/
theorem typing_debounce :
    (∀ (t : Nat) (rest : List Nat),
      List.Chain (fun a b => a < b ∧ b < a + TYPING_TIMEOUT) t rest →
      autoStops (typingTrace ((t :: rest).map TypingAct.start)) =
        [TypingEmit.stopAuto ((t :: rest).getLast (by simp) + TYPING_TIMEOUT)]) ∧
    (∀ (t tstop : Nat) (rest : List Nat),
      List.Chain (fun a b => a < b ∧ b < a + TYPING_TIMEOUT) t rest →
      tstop < (t :: rest).getLast (by simp) + TYPING_TIMEOUT →
      autoStops (typingTrace
        ((t :: rest).map TypingAct.start ++ [TypingAct.stop tstop])) = []) ∧
    (∀ (ops : List TimerOp) (k : String),
      timerCount (ops.foldl applyTimerOp []) k ≤ 1) := by
  have hfold : ∀ (ops : List TimerOp) (m : List (String × Nat)),
      (∀ k2, timerCount m k2 ≤ 1) →
      ∀ k, timerCount (ops.foldl applyTimerOp m) k ≤ 1 := by
    intro ops
    induction ops with
    | nil => intro m h k; exact h k
    | cons op rest ih =>
      intro m h k
      exact ih (applyTimerOp m op)
        (fun k2 => timerCount_applyTimerOp m op k2 (h k2)) k
  refine ⟨?_, ?_, ?_⟩
  · intro t rest hchain
    have hrun := typingRun_starts rest t none (by intro e he; cases he) hchain
    unfold typingTrace
    rw [hrun]
    dsimp only
    unfold autoStops
    rw [List.filter_append]
    rw [show ((t :: rest).map TypingEmit.startEv).filter isAutoStop = []
      from autoStops_startEvs _]
    rfl
  · intro t tstop rest hchain hstop
    have hrun := typingRun_starts rest t none (by intro e he; cases he) hchain
    unfold typingTrace
    rw [typingRun_append, hrun]
    dsimp only
    rw [typingRun_stop_cancels _ tstop hstop]
    dsimp only
    unfold autoStops
    rw [List.filter_append, List.filter_append]
    rw [show ((t :: rest).map TypingEmit.startEv).filter isAutoStop = []
      from autoStops_startEvs _]
    rfl
  · intro ops k
    exact hfold ops [] (fun _ => by show (0 : Nat) ≤ 1; omega) k

theorem typing_debounce_witness :
    autoStops (typingTrace ([0, 1000, 2000].map TypingAct.start)) =
      [TypingEmit.stopAuto
        (([0, 1000, 2000] : List Nat).getLast (by simp) + TYPING_TIMEOUT)] :=
  typing_debounce.1 0 [1000, 2000]
    (List.Chain.cons (by unfold TYPING_TIMEOUT; omega)
      (List.Chain.cons (by unfold TYPING_TIMEOUT; omega) List.Chain.nil))

/-! ## Counter-map lemmas -/

/-- updateOne only rewrites the first match: a find? with the same filter
sees the rewritten document, provided the update preserves the filter. -/
theorem find?_updateFirst (p : α → Bool) (f : α → α) (l : List α)
    (hpf : ∀ a, p (f a) = p a) :
    (updateFirst p f l).find? p = (l.find? p).map f := by
  induction l with
  | nil => rfl
  | cons x xs ih =>
    unfold updateFirst
    by_cases hx : p x = true
    · rw [if_pos hx]
      rw [List.find?_cons_of_pos _ (by rw [hpf]; exact hx)]
      rw [List.find?_cons_of_pos _ hx]
      rfl
    · rw [if_neg hx]
      rw [List.find?_cons_of_neg _ (by rw [Bool.not_eq_true] at hx ⊢; exact hx)]
      rw [List.find?_cons_of_neg _ (by rw [Bool.not_eq_true] at hx ⊢; exact hx)]
      exact ih

/-- Setting a counter makes it read the set value. -/
theorem countOr0_setCount (m : List (String × Nat)) (k : String) (v : Nat) :
    countOr0 (setCount m k v) k = v := by
  unfold setCount countOr0
  by_cases hs : (m.find? (fun p => p.1 == k)).isSome
  · rw [if_pos hs]
    rw [List.find?_map]
    cases hfd : m.find? (fun p => p.1 == k) with
    | none => rw [hfd] at hs; simp at hs
    | some q =>
      have hq : (q.1 == k) = true :=
        List.find?_some (p := fun p : String × Nat => p.1 == k) hfd
      have hcomp : (fun p : String × Nat => p.1 == k) ∘
          (fun p : String × Nat => if p.1 == k then (p.1, v) else p) =
          fun p : String × Nat => p.1 == k := by
        funext p
        by_cases hp : (p.1 == k) = true
        · simp [Function.comp, hp]
        · simp [Function.comp, hp]
      rw [hcomp, hfd]
      simp [hq]
      rw [if_pos (beq_iff_eq.mp hq)]
  · rw [if_neg hs]
    have hnone : m.find? (fun p => p.1 == k) = none := by
      cases hfd : m.find? (fun p => p.1 == k) with
      | none => rfl
      | some q => rw [hfd] at hs; simp at hs
    rw [List.find?_append, hnone]
    simp

/-- Incrementing a key bumps exactly that counter by one, an absent key
reading as zero. -/
theorem countOr0_incCount_self (m : List (String × Nat)) (k : String) :
    countOr0 (incCount m k) k = countOr0 m k + 1 := by
  unfold incCount countOr0
  by_cases hs : (m.find? (fun p => p.1 == k)).isSome
  · rw [if_pos hs]
    rw [List.find?_map]
    cases hfd : m.find? (fun p => p.1 == k) with
    | none => rw [hfd] at hs; simp at hs
    | some q =>
      have hq : (q.1 == k) = true :=
        List.find?_some (p := fun p : String × Nat => p.1 == k) hfd
      have hcomp : (fun p : String × Nat => p.1 == k) ∘
          (fun p : String × Nat => if p.1 == k then (p.1, p.2 + 1) else p) =
          fun p : String × Nat => p.1 == k := by
        funext p
        by_cases hp : (p.1 == k) = true
        · simp [Function.comp, hp]
        · simp [Function.comp, hp]
      rw [hcomp, hfd]
      simp [hq]
      rw [if_pos (beq_iff_eq.mp hq)]
  · rw [if_neg hs]
    have hnone : m.find? (fun p => p.1 == k) = none := by
      cases hfd : m.find? (fun p => p.1 == k) with
      | none => rfl
      | some q => rw [hfd] at hs; simp at hs
    rw [List.find?_append, hnone]
    simp

/-- Incrementing one key leaves every other counter unchanged. -/
theorem countOr0_incCount_other (m : List (String × Nat)) (k k2 : String)
    (hne : k2 ≠ k) : countOr0 (incCount m k) k2 = countOr0 m k2 := by
  unfold incCount countOr0
  by_cases hs : (m.find? (fun p => p.1 == k)).isSome
  · rw [if_pos hs]
    rw [List.find?_map]
    have hcomp : (fun p : String × Nat => p.1 == k2) ∘
        (fun p : String × Nat => if p.1 == k then (p.1, p.2 + 1) else p) =
        fun p : String × Nat => p.1 == k2 := by
      funext p
      by_cases hp : (p.1 == k) = true
      · simp [Function.comp, hp]
      · simp [Function.comp, hp]
    rw [hcomp]
    cases hfd : m.find? (fun p => p.1 == k2) with
    | none => rfl
    | some q =>
      have hq : (q.1 == k) = false := by
        have h0 := List.find?_some (p := fun p : String × Nat => p.1 == k2) hfd
        rw [beq_iff_eq] at h0
        rw [beq_eq_false_iff_ne, h0]
        exact hne
      simp [hq]
      rw [if_neg (beq_eq_false_iff_ne.mp hq)]
  · rw [if_neg hs]
    rw [List.find?_append]
    have h0 : List.find? (fun p => p.1 == k2) [(k, 1)] = none := by
      simp [List.find?, show (k == k2) = false by
        rw [beq_eq_false_iff_ne]; exact fun hc => hne hc.symm]
    rw [h0]
    cases m.find? (fun p => p.1 == k2) <;> rfl

/-- Folding $inc over distinct keys bumps exactly the listed counters by
one. -/
theorem countOr0_foldl_incCount (keys : List String) :
    ∀ (m : List (String × Nat)) (k : String), keys.Nodup →
    countOr0 (keys.foldl incCount m) k =
      countOr0 m k + (if k ∈ keys then 1 else 0) := by
  induction keys with
  | nil => intro m k _; simp
  | cons a rest ih =>
    intro m k hnd
    rw [List.foldl_cons]
    rw [ih (incCount m a) k hnd.of_cons]
    by_cases hka : k = a
    · rw [hka]
      have hnotin : a ∉ rest := (List.nodup_cons.mp hnd).1
      rw [countOr0_incCount_self]
      rw [if_neg hnotin, if_pos (List.mem_cons_self a rest)]
    · rw [countOr0_incCount_other m a k hka]
      by_cases hkr : k ∈ rest
      · rw [if_pos hkr, if_pos (List.mem_cons_of_mem a hkr)]
      · rw [if_neg hkr,
          if_neg (fun hc => (List.mem_cons.mp hc).elim hka hkr)]

/-- An update that a projection cannot see leaves the projected list
unchanged. -/
theorem map_updateFirst (p : α → Bool) (f : α → α) (g : α → β) (l : List α)
    (hgf : ∀ a, g (f a) = g a) : (updateFirst p f l).map g = l.map g := by
  induction l with
  | nil => rfl
  | cons x xs ih =>
    unfold updateFirst
    by_cases hx : p x = true
    · rw [if_pos hx]
      simp only [List.map_cons, hgf]
    · rw [if_neg hx]
      simp only [List.map_cons, ih]

/-- C5: a first-page history load (no cursor) by a participant resets the
requester unread counter for that conversation to zero as part of the
load, and the handler answers with the loaded page, not an error. -/
theorem chatLoad_resets_unread (store : CStore) (uid cid : String) (limit : Nat)
    (conv : CConversation)
    (hvalid : isValidId cid = true)
    (hfind : store.conversations.find? (fun c => c.idStr == cid &&
      c.participants.any (fun p => p.userId == uid)) = some conv) :
    (∃ msgs : List CMessage,
      (chatMessagesLoad store uid cid none limit).2 =
        [CEffect.emit (.messagesLoaded cid msgs (msgs.length == limit))]) ∧
    ((chatMessagesLoad store uid cid none limit).1.conversations.find?
        (fun c => c.idStr == cid)).map
      (fun c => countOr0 c.unreadCounts uid) = some 0 := by
  have hrun : chatMessagesLoad store uid cid none limit =
      ({ store with
         conversations :=
           updateFirst (fun c => c.idStr == cid) (cResetUnread uid)
             store.conversations },
       [CEffect.emit (.messagesLoaded cid
         ((sortByCreatedDesc (store.messages.filter (fun m =>
            m.conversationId == cid && true))).take limit)
         (((sortByCreatedDesc (store.messages.filter (fun m =>
            m.conversationId == cid && true))).take limit).length == limit))]) := by
    unfold chatMessagesLoad
    rw [hvalid, hfind]
    rfl
  constructor
  · exact ⟨_, by rw [hrun]⟩
  · rw [hrun]
    have hsome : (store.conversations.find? (fun c => c.idStr == cid)).isSome := by
      rw [List.find?_isSome]
      refine ⟨conv, List.mem_of_find?_eq_some hfind, ?_⟩
      have h0 := List.find?_some hfind
      exact (Bool.and_eq_true_iff.mp h0).1
    cases hfd : store.conversations.find? (fun c => c.idStr == cid) with
    | none => rw [hfd] at hsome; simp at hsome
    | some c0 =>
      show (List.find? (fun c => c.idStr == cid)
        (updateFirst (fun c => c.idStr == cid) (cResetUnread uid)
          store.conversations)).map (fun c => countOr0 c.unreadCounts uid) = some 0
      rw [find?_updateFirst (fun c => c.idStr == cid) (cResetUnread uid)
        store.conversations (fun a => rfl), hfd]
      rw [Option.map_some']
      show some (countOr0 (setCount c0.unreadCounts uid 0) uid) = some 0
      rw [countOr0_setCount]

def cLoadConv : CConversation :=
  { idStr := "convload0001", ctype := "direct",
    participants := [{ userId := "u1", userName := "U1", userAvatar := "" },
                     { userId := "u2", userName := "U2", userAvatar := "" }],
    unreadCounts := [("u2", 3)], lastMessage := none,
    createdAt := 0, updatedAt := 0 }

def cLoadStore : CStore := { conversations := [cLoadConv], messages := [] }

theorem chatLoad_resets_unread_witness :
    ((chatMessagesLoad cLoadStore "u2" "convload0001" none 50).1.conversations.find?
        (fun c => c.idStr == "convload0001")).map
      (fun c => countOr0 c.unreadCounts "u2") = some 0 :=
  (chatLoad_resets_unread cLoadStore "u2" "convload0001" 50 cLoadConv
    (by decide) (by decide)).2

/-! ## C1: readBy and unread counters at send time -/

def cSendConv : CConversation :=
  { idStr := "convsend0001", ctype := "direct",
    participants := [{ userId := "u1", userName := "U1", userAvatar := "" },
                     { userId := "u2", userName := "U2", userAvatar := "" }],
    unreadCounts := [], lastMessage := none, createdAt := 0, updatedAt := 0 }

def cSendStore : CStore := { conversations := [cSendConv], messages := [] }

/-- C1 counterexample: a successful, valid send through the
raw-collection handler (the only send handler that maintains
unreadCounts) persists a message document carrying no readBy field at
all, so the persisted readBy is not the sender singleton. -/
theorem send_readBy_counterexample :
    ((chatMessageSend cSendStore "u1" "U1" "" "convsend0001" "hello" [] none
        7 1000).1.messages.map (fun m => m.readBy)) = [none] ∧
    (none : Option (List String)) ≠ some ["u1"] := by
  constructor
  · decide
  · decide

/-- C1 amended: in the mongoose send handler a successful valid send
persists the message with readBy exactly the sender and rewrites only
lastMessage and updatedAt of the conversations (that schema has no unread
counters); in the raw-collection send handler every participant other
than the sender has unreadCounts incremented by exactly one and the
sender entry is untouched, while the persisted message carries no readBy
field. -/
theorem send_readBy_and_unread_amended :
    (∀ (store : Store) (uid un ua cid content : String) (fid now : Nat)
        (conv : Conversation),
      isValidId cid = true →
      store.conversations.find?
        (fun c => c.idStr == cid && c.participants.contains uid) = some conv →
      trimString content ≠ "" →
      ¬5000 < (trimString content).length →
      (handleMessageSend store uid un ua cid content true fid now).1.messages =
        store.messages ++
          [mkSentMessage uid un ua cid (trimString content) fid now] ∧
      (handleMessageSend store uid un ua cid content true fid now).1.conversations.map
          (fun c => (c.idStr, c.ctype, c.name, c.slug, c.participants)) =
        store.conversations.map
          (fun c => (c.idStr, c.ctype, c.name, c.slug, c.participants))) ∧
    (∀ (store : CStore) (uid un ua cid content : String)
        (atts : List CAttachment) (rt : Option CReplyTo) (fid now : Nat)
        (conv : CConversation),
      isValidId cid = true →
      store.conversations.find? (fun c => c.idStr == cid &&
        c.participants.any (fun p => p.userId == uid)) = some conv →
      store.conversations.find? (fun c => c.idStr == cid) = some conv →
      (chatMessageSend store uid un ua cid content atts rt fid now).1.messages =
        store.messages ++
          [mkCSentMessage uid un ua cid content atts rt fid now] ∧
      (∀ p ∈ conv.participants, p.userId ≠ uid →
        ((chatMessageSend store uid un ua cid content atts rt fid
            now).1.conversations.find? (fun c => c.idStr == cid)).map
          (fun c => countOr0 c.unreadCounts p.userId) =
          some (countOr0 conv.unreadCounts p.userId + 1)) ∧
      ((chatMessageSend store uid un ua cid content atts rt fid
          now).1.conversations.find? (fun c => c.idStr == cid)).map
        (fun c => countOr0 c.unreadCounts uid) =
        some (countOr0 conv.unreadCounts uid)) := by
  constructor
  · intro store uid un ua cid content fid now conv hvalid hfind htrim hlen
    have hcontent : (trimString content == "" ||
        decide ((trimString content).length > 5000)) = false := by
      rw [Bool.or_eq_false_iff]
      constructor
      · rw [beq_eq_false_iff_ne]; exact htrim
      · rw [decide_eq_false_iff_not]; exact hlen
    have hrun : handleMessageSend store uid un ua cid content true fid now =
        ({ conversations :=
              updateFirst (fun c => c.idStr == cid)
                (applySendUpdate (trimString content) uid un now)
                store.conversations,
           messages :=
              store.messages ++
                [mkSentMessage uid un ua cid (trimString content) fid now] },
         [.persist (mkSentMessage uid un ua cid (trimString content) fid now),
          .emit (.messageNew (getChatRoom cid)
            (mkSentMessage uid un ua cid (trimString content) fid now))]) := by
      unfold handleMessageSend
      rw [hvalid]
      dsimp only
      rw [hcontent, hfind]
      rfl
    rw [hrun]
    refine ⟨rfl, ?_⟩
    exact map_updateFirst _ _ _ _ (fun a => rfl)
  · intro store uid un ua cid content atts rt fid now conv hvalid hfind hfind2
    have hrun : chatMessageSend store uid un ua cid content atts rt fid now =
        ({ conversations :=
              updateFirst (fun c => c.idStr == cid)
                (cApplySendUpdate content atts un now
                  (cOtherParticipants conv uid))
                store.conversations,
           messages :=
              store.messages ++
                [mkCSentMessage uid un ua cid content atts rt fid now] },
         [.persist (mkCSentMessage uid un ua cid content atts rt fid now),
          .emit (.messageReceived cid
            (mkCSentMessage uid un ua cid content atts rt fid now))]) := by
      unfold chatMessageSend
      rw [hvalid, hfind]
      rfl
    have hfres : ((chatMessageSend store uid un ua cid content atts rt fid
        now).1.conversations.find? (fun c => c.idStr == cid)) =
        some (cApplySendUpdate content atts un now
          (cOtherParticipants conv uid) conv) := by
      rw [hrun]
      show List.find? (fun c => c.idStr == cid)
        (updateFirst (fun c => c.idStr == cid)
          (cApplySendUpdate content atts un now (cOtherParticipants conv uid))
          store.conversations) =
        some (cApplySendUpdate content atts un now
          (cOtherParticipants conv uid) conv)
      rw [find?_updateFirst (fun c => c.idStr == cid)
        (cApplySendUpdate content atts un now (cOtherParticipants conv uid))
        store.conversations (fun a => rfl), hfind2]
      rfl
    refine ⟨by rw [hrun], ?_, ?_⟩
    · intro p hp hpne
      rw [hfres]
      rw [Option.map_some']
      have hmem : p.userId ∈ ((conv.participants.filter
          (fun q => q.userId != uid)).map (fun q => q.userId)).dedup := by
        rw [List.mem_dedup]
        refine List.mem_map.mpr ⟨p, ?_, rfl⟩
        rw [List.mem_filter]
        exact ⟨hp, by rw [bne_iff_ne]; exact hpne⟩
      congr 1
      show countOr0 ((((conv.participants.filter (fun q => q.userId != uid)).map
        (fun q => q.userId)).dedup).foldl incCount conv.unreadCounts) p.userId = _
      rw [countOr0_foldl_incCount _ _ _ (List.nodup_dedup _), if_pos hmem]
    · rw [hfres]
      rw [Option.map_some']
      have hnmem : uid ∉ ((conv.participants.filter
          (fun q => q.userId != uid)).map (fun q => q.userId)).dedup := by
        rw [List.mem_dedup]
        intro hc
        obtain ⟨p, hpmem, hpeq⟩ := List.mem_map.mp hc
        rw [List.mem_filter] at hpmem
        have h2 := hpmem.2
        rw [bne_iff_ne] at h2
        exact h2 hpeq
      congr 1
      show countOr0 ((((conv.participants.filter (fun q => q.userId != uid)).map
        (fun q => q.userId)).dedup).foldl incCount conv.unreadCounts) uid = _
      rw [countOr0_foldl_incCount _ _ _ (List.nodup_dedup _), if_neg hnmem]
      omega

theorem send_readBy_and_unread_amended_witness :
    (handleMessageSend scenStore "alice" "Alice" "" scenCid "hello" true
        99 5).1.messages =
      scenStore.messages ++
        [mkSentMessage "alice" "Alice" "" scenCid (trimString "hello") 99 5] ∧
    ((chatMessageSend cSendStore "u1" "U1" "" "convsend0001" "hello" [] none 7
        1000).1.conversations.find? (fun c => c.idStr == "convsend0001")).map
      (fun c => countOr0 c.unreadCounts "u2") =
      some (countOr0 cSendConv.unreadCounts "u2" + 1) :=
  ⟨(send_readBy_and_unread_amended.1 scenStore "alice" "Alice" "" scenCid
      "hello" 99 5 scenConv (by decide) (by decide) (by decide) (by decide)).1,
   (send_readBy_and_unread_amended.2 cSendStore "u1" "U1" "" "convsend0001"
      "hello" [] none 7 1000 cSendConv (by decide) (by decide) (by decide)).2.1
     { userId := "u2", userName := "U2", userAvatar := "" } (by decide)
     (by decide)⟩

end Rendezvous
